import Mathlib

/-!
Verification of the AIS websocket stream server (`index.js` and its
variants): a shallow embedding in Lean 4 of the data model, the stream
client's message handler, the connection-state bookkeeping, the batched
flush to storage, the age-based retention sweep and the filtered,
paginated `/api/ships` query handlers, together with theorems settling
the spec's claims about them.

Modelling conventions:
- JavaScript numbers that the program only stores, copies and compares
  (`lat`, `lon`, `speed`, `course`, timestamps) are modelled as `Int`;
  every operation the code performs on them (comparison, copying,
  `parseFloat` of an already numeric string, `new Date` of a timestamp)
  is order-preserving, so nothing is lost by the choice.
- An absent/falsy query parameter or message field is `none`.
- Fallible steps (JSON decoding, the storage round trip) are explicit:
  decoding yields `Option IncomingData` (`none` = `JSON.parse` throws)
  and a storage attempt carries a `Bool` success flag.
-/

/-- One vessel record, keyed by `mmsi`, exactly the object literal the
message handler builds: `{ mmsi, lat, lon, speed, course, timestamp }`. -/
structure ShipRecord where
  mmsi : String
  lat : Int
  lon : Int
  speed : Int
  course : Int
  timestamp : Int
deriving DecidableEq, Repr

/-- `data.Message.PositionReport`: latitude and longitude are always
present, `Sog`/`Cog` may be absent (the code substitutes 0 via `|| 0`). -/
structure PositionReport where
  latitude : Int
  longitude : Int
  sog : Option Int
  cog : Option Int
deriving DecidableEq, Repr

/-- `data.MetaData` of an upstream message. -/
structure MetaDataInfo where
  mmsiString : String
  timeUtc : Int
deriving DecidableEq, Repr

/-- A decoded upstream message: `message = none` models a payload whose
`data.Message`/`data.Message.PositionReport` guard fails. -/
structure IncomingData where
  message : Option PositionReport
  metaData : MetaDataInfo
deriving DecidableEq, Repr

/-- `v || 0` for a possibly-absent numeric field: absent gives 0, and a
present 0 is falsy and also gives 0, so `Option.getD 0` is exact. -/
def jsOrZero (v : Option Int) : Int := v.getD 0

/-- The `shipData` object the handler constructs from a decoded message:
`{ mmsi: MetaData.MMSI_String, lat: Latitude, lon: Longitude,
   speed: Sog || 0, course: Cog || 0, timestamp: MetaData.time_utc }`. -/
def shipDataOf (pr : PositionReport) (meta : MetaDataInfo) : ShipRecord :=
  { mmsi := meta.mmsiString
    lat := pr.latitude
    lon := pr.longitude
    speed := jsOrZero pr.sog
    course := jsOrZero pr.cog
    timestamp := meta.timeUtc }

/-- The object spread `{ ...existing, ...shipData }` at the point it is
used: `shipData` defines every one of the six keys (speed and course were
already defaulted to 0 when absent), so each key takes the incoming value
and the existing record contributes nothing. -/
def spreadUpdate (_existing shipData : ShipRecord) : ShipRecord := shipData

/-- `shipsData[existingIndex] = { ...shipsData[existingIndex], ...shipData }`:
replace the record at the first index whose `mmsi` matches
(`Array.prototype.findIndex` returns the first match). -/
def updateAtFirstMatch : List ShipRecord → ShipRecord → List ShipRecord
  | [], _ => []
  | ship :: rest, shipData =>
      if ship.mmsi == shipData.mmsi then spreadUpdate ship shipData :: rest
      else ship :: updateAtFirstMatch rest shipData

/-- The upsert block of the message handler: `findIndex` by `mmsi`, update
in place when found, `push` otherwise. -/
def upsertShipsData (shipsData : List ShipRecord) (shipData : ShipRecord) : List ShipRecord :=
  if shipsData.any (fun ship => ship.mmsi == shipData.mmsi) then
    updateAtFirstMatch shipsData shipData
  else
    shipsData ++ [shipData]

/-- `ws.onmessage` on an already decoded payload: ignore a message without
a `PositionReport`, otherwise construct `shipData` and upsert it. -/
def onMessage (shipsData : List ShipRecord) (d : IncomingData) : List ShipRecord :=
  match d.message with
  | some pr => upsertShipsData shipsData (shipDataOf pr d.metaData)
  | none => shipsData

/-- The full `ws.onmessage` body including the decode step
`JSON.parse(message.data.toString())`. The parse stands outside any
`try`/`catch`, so a payload that fails to decode (`raw = none`) raises an
exception that escapes the handler, modelled as `Except.error ()`; the
postgres variant additionally installs an `uncaughtException` hook that
calls `process.exit(1)`. -/
def onMessageRaw (raw : Option IncomingData) (shipsData : List ShipRecord) :
    Except Unit (List ShipRecord) :=
  match raw with
  | none => Except.error ()
  | some d => Except.ok (onMessage shipsData d)

/-- `Map.set` over the in-memory cache of the postgres variant, as an
insertion-ordered association list: an existing key keeps its place and
gets the new value, a new key is appended. -/
def mapSet : List (String × ShipRecord) → String → ShipRecord → List (String × ShipRecord)
  | [], k, v => [(k, v)]
  | (k₁, v₁) :: rest, k, v =>
      if k₁ == k then (k₁, v) :: rest else (k₁, v₁) :: mapSet rest k v

/-- `Map.get` over the association-list cache. -/
def mapGet : List (String × ShipRecord) → String → Option ShipRecord
  | [], _ => none
  | (k₁, v₁) :: rest, k => if k₁ == k then some v₁ else mapGet rest k

/-- `ws.onmessage` of the postgres variant: `shipDataCache.set(mmsi, shipData)`
replaces the cached record for that vessel wholesale. -/
def cacheOnMessage (cache : List (String × ShipRecord)) (d : IncomingData) :
    List (String × ShipRecord) :=
  match d.message with
  | some pr => mapSet cache d.metaData.mmsiString (shipDataOf pr d.metaData)
  | none => cache

/-- `connectionState`: `{ lastConnectionTimestamp, isConnected }`. -/
structure ConnectionState where
  isConnected : Bool
  lastConnectionTimestamp : Option Int
deriving DecidableEq, Repr

/-- The websocket events the connection-state handlers react to; `opened`
carries `new Date()` of the moment the handshake succeeds. -/
inductive ConnEvent where
  | opened (now : Int)
  | closed
  | errored
deriving DecidableEq, Repr

/-- The transition the three handlers make on `connectionState`:
`onopen` sets `isConnected = true` and records the connection time,
`onclose` and `onerror` set `isConnected = false` and touch nothing else. -/
def connStep (st : ConnectionState) : ConnEvent → ConnectionState
  | ConnEvent.opened now => { isConnected := true, lastConnectionTimestamp := some now }
  | ConnEvent.closed => { st with isConnected := false }
  | ConnEvent.errored => { st with isConnected := false }

/-- Whether an event is a successful connect. -/
def isOpenEvent : ConnEvent → Bool
  | ConnEvent.opened _ => true
  | _ => false

/-- `INSERT ... ON CONFLICT (mmsi) DO UPDATE SET lat = EXCLUDED.lat, ...`:
one row of the batched upsert replaces every field of an existing row with
the same `mmsi`, or inserts a new row. -/
def sqlUpsertRow (db : List ShipRecord) (r : ShipRecord) : List ShipRecord :=
  if db.any (fun x => x.mmsi == r.mmsi) then
    db.map (fun x => if x.mmsi == r.mmsi then r else x)
  else
    db ++ [r]

/-- The batched statement applied row by row. -/
def upsertBatch (db : List ShipRecord) (ships : List ShipRecord) : List ShipRecord :=
  ships.foldl sqlUpsertRow db

/-- The state a flush cycle leaves behind: the in-memory cache, the durable
table, and whether an error escaped the cycle. -/
structure FlushResult where
  cache : List (String × ShipRecord)
  db : List ShipRecord
  fatal : Bool
deriving DecidableEq, Repr

/-- `flushShipDataCache`: return early on an empty cache; otherwise drain
(`Array.from(cache.values())` then `cache.clear()`) BEFORE attempting the
batched upsert, whose success is modelled by `storageOk`. The `catch`
only logs, so the cycle never throws, and nothing restores the drained
records when the statement fails. -/
def flushShipDataCache (shipDataCache : List (String × ShipRecord))
    (db : List ShipRecord) (storageOk : Bool) : FlushResult :=
  if shipDataCache.isEmpty then
    { cache := shipDataCache, db := db, fatal := false }
  else
    let shipsToUpdate := shipDataCache.map Prod.snd
    let clearedCache : List (String × ShipRecord) := []
    if storageOk then
      { cache := clearedCache, db := upsertBatch db shipsToUpdate, fatal := false }
    else
      { cache := clearedCache, db := db, fatal := false }

/-- `DELETE FROM ships WHERE timestamp < thresholdDate`. -/
def deleteWhereOlder (ships : List ShipRecord) (thresholdDate : Int) : List ShipRecord :=
  ships.filter (fun r => !decide (r.timestamp < thresholdDate))

/-- One day in the model's clock units (`setDate(getDate() - 1)`). -/
def oneDayMs : Int := 86400000

/-- `deleteOldRecords`: the hourly sweep with `thresholdDate = now - 24h`. -/
def deleteOldRecords (ships : List ShipRecord) (now : Int) : List ShipRecord :=
  deleteWhereOlder ships (now - oneDayMs)

/-! ### Registry invariant: at most one record per mmsi -/

/-- How many records of the list carry the given `mmsi`. -/
def mmsiCount (s : List ShipRecord) (m : String) : Nat :=
  s.countP (fun r => r.mmsi == m)

/-- Every `mmsi` occurs at most once. -/
def KeysOnce (s : List ShipRecord) : Prop := ∀ m : String, mmsiCount s m ≤ 1

theorem mmsiCount_nil (m : String) : mmsiCount [] m = 0 := rfl

theorem mmsiCount_cons (r : ShipRecord) (s : List ShipRecord) (m : String) :
    mmsiCount (r :: s) m = mmsiCount s m + (if r.mmsi == m then 1 else 0) := by
  by_cases h : r.mmsi == m <;> simp [mmsiCount, List.countP_cons, h]

theorem updateAtFirstMatch_cons_pos (ship : ShipRecord) (rest : List ShipRecord)
    (r : ShipRecord) (hm : (ship.mmsi == r.mmsi) = true) :
    updateAtFirstMatch (ship :: rest) r = r :: rest := by
  simp [updateAtFirstMatch, hm, spreadUpdate]

theorem updateAtFirstMatch_cons_neg (ship : ShipRecord) (rest : List ShipRecord)
    (r : ShipRecord) (hm : (ship.mmsi == r.mmsi) = false) :
    updateAtFirstMatch (ship :: rest) r = ship :: updateAtFirstMatch rest r := by
  simp [updateAtFirstMatch, hm]

theorem mmsiCount_updateAtFirstMatch (s : List ShipRecord) (r : ShipRecord) (m : String)
    (h : s.any (fun ship => ship.mmsi == r.mmsi) = true) :
    mmsiCount (updateAtFirstMatch s r) m = mmsiCount s m := by
  induction s with
  | nil => simp at h
  | cons ship rest ih =>
      by_cases hm : (ship.mmsi == r.mmsi) = true
      · have hms : ship.mmsi = r.mmsi := by simpa using hm
        rw [updateAtFirstMatch_cons_pos ship rest r hm]
        rw [mmsiCount_cons, mmsiCount_cons, hms]
      · rw [Bool.not_eq_true] at hm
        have hrest : rest.any (fun x => x.mmsi == r.mmsi) = true := by
          simp only [List.any_cons, hm, Bool.false_or] at h
          exact h
        rw [updateAtFirstMatch_cons_neg ship rest r hm]
        rw [mmsiCount_cons, mmsiCount_cons, ih hrest]

theorem mmsiCount_append (s t : List ShipRecord) (m : String) :
    mmsiCount (s ++ t) m = mmsiCount s m + mmsiCount t m := by
  simp [mmsiCount, List.countP_append]

theorem mmsiCount_pos_of_any (s : List ShipRecord) (r : ShipRecord)
    (h : s.any (fun ship => ship.mmsi == r.mmsi) = true) :
    0 < mmsiCount s r.mmsi := by
  rw [mmsiCount, List.countP_pos_iff]
  rw [List.any_eq_true] at h
  exact h

theorem mmsiCount_eq_zero_of_not_any (s : List ShipRecord) (r : ShipRecord)
    (h : s.any (fun ship => ship.mmsi == r.mmsi) = false) :
    mmsiCount s r.mmsi = 0 := by
  rw [mmsiCount, List.countP_eq_zero]
  intro a ha
  rw [List.any_eq_false] at h
  exact h a ha

theorem mmsiCount_upsert_self (s : List ShipRecord) (r : ShipRecord) (hs : KeysOnce s) :
    mmsiCount (upsertShipsData s r) r.mmsi = 1 := by
  rw [upsertShipsData]
  by_cases h : s.any (fun ship => ship.mmsi == r.mmsi) = true
  · rw [if_pos h, mmsiCount_updateAtFirstMatch s r _ h]
    have h1 := mmsiCount_pos_of_any s r h
    have h2 := hs r.mmsi
    omega
  · rw [Bool.not_eq_true] at h
    rw [if_neg (by simp [h]), mmsiCount_append]
    rw [mmsiCount_eq_zero_of_not_any s r h]
    simp [mmsiCount, List.countP_cons]

theorem keysOnce_upsert (s : List ShipRecord) (r : ShipRecord) (hs : KeysOnce s) :
    KeysOnce (upsertShipsData s r) := by
  intro m
  rw [upsertShipsData]
  by_cases h : s.any (fun ship => ship.mmsi == r.mmsi) = true
  · rw [if_pos h, mmsiCount_updateAtFirstMatch s r m h]
    exact hs m
  · rw [Bool.not_eq_true] at h
    rw [if_neg (by simp [h]), mmsiCount_append]
    by_cases hm : (r.mmsi == m) = true
    · have hms : r.mmsi = m := by simpa using hm
      have h0 : mmsiCount s m = 0 := hms ▸ mmsiCount_eq_zero_of_not_any s r h
      have h1 : mmsiCount [r] m = 1 := by
        simp [mmsiCount, List.countP_cons, hm]
      omega
    · rw [Bool.not_eq_true] at hm
      have h1 : mmsiCount [r] m = 0 := by
        simp [mmsiCount, List.countP_cons, hm]
      rw [h1]
      simpa using hs m

theorem keysOnce_onMessage (s : List ShipRecord) (d : IncomingData) (hs : KeysOnce s) :
    KeysOnce (onMessage s d) := by
  rw [onMessage]
  cases d.message with
  | none => exact hs
  | some pr => exact keysOnce_upsert _ _ hs

theorem keysOnce_nil : KeysOnce [] := by
  intro m
  simp [mmsiCount]

theorem keysOnce_foldl (msgs : List IncomingData) (s : List ShipRecord) (hs : KeysOnce s) :
    KeysOnce (msgs.foldl onMessage s) := by
  induction msgs generalizing s with
  | nil => exact hs
  | cons d rest ih => exact ih _ (keysOnce_onMessage s d hs)

theorem find?_updateAtFirstMatch (s : List ShipRecord) (r : ShipRecord)
    (h : s.any (fun ship => ship.mmsi == r.mmsi) = true) :
    (updateAtFirstMatch s r).find? (fun x => x.mmsi == r.mmsi) = some r := by
  induction s with
  | nil => simp at h
  | cons ship rest ih =>
      by_cases hm : (ship.mmsi == r.mmsi) = true
      · rw [updateAtFirstMatch_cons_pos ship rest r hm]
        simp [List.find?_cons]
      · rw [Bool.not_eq_true] at hm
        have hrest : rest.any (fun x => x.mmsi == r.mmsi) = true := by
          simp only [List.any_cons, hm, Bool.false_or] at h
          exact h
        rw [updateAtFirstMatch_cons_neg ship rest r hm]
        rw [List.find?_cons_of_neg _ (by simp [hm])]
        exact ih hrest

theorem find?_upsert_self (s : List ShipRecord) (r : ShipRecord) :
    (upsertShipsData s r).find? (fun x => x.mmsi == r.mmsi) = some r := by
  rw [upsertShipsData]
  by_cases h : s.any (fun ship => ship.mmsi == r.mmsi) = true
  · rw [if_pos h]
    exact find?_updateAtFirstMatch s r h
  · rw [Bool.not_eq_true] at h
    rw [if_neg (by simp [h]), List.find?_append]
    have hnone : s.find? (fun x => x.mmsi == r.mmsi) = none := by
      rw [List.find?_eq_none]
      intro a ha
      rw [List.any_eq_false] at h
      simpa using h a ha
    simp [hnone, List.find?_cons]

theorem mapGet_mapSet_self (cache : List (String × ShipRecord)) (k : String) (v : ShipRecord) :
    mapGet (mapSet cache k v) k = some v := by
  induction cache with
  | nil => simp [mapSet, mapGet]
  | cons e rest ih =>
      obtain ⟨k₁, v₁⟩ := e
      by_cases hk : k₁ == k
      · simp [mapSet, mapGet, hk]
      · simp only [mapSet, mapGet, hk, if_false]
        exact ih

/-! ### The query engine -/

/-- The query parameters of `GET /api/ships`. An absent (or falsy/empty)
parameter is `none`; `page` and `limit` carry the destructuring defaults
`page = 1, limit = 100`. `parseInt`/`parseFloat` of a numeric parameter
and `new Date` of a timestamp parameter are order-preserving, so the
parsed values are modelled directly. -/
structure QueryParams where
  mmsi : Option String := none
  latMin : Option Int := none
  latMax : Option Int := none
  lonMin : Option Int := none
  lonMax : Option Int := none
  speedMin : Option Int := none
  speedMax : Option Int := none
  courseMin : Option Int := none
  courseMax : Option Int := none
  timestampMin : Option Int := none
  timestampMax : Option Int := none
  page : Int := 1
  limit : Int := 100
deriving DecidableEq, Repr

/-- `if (mmsi) filteredData = filteredData.filter(ship => ship.mmsi.toString() === mmsi)`. -/
def filterMMSI (l : List ShipRecord) (m? : Option String) : List ShipRecord :=
  match m? with
  | some m => l.filter (fun ship => ship.mmsi == m)
  | none => l

/-- `if (latMin && latMax && lonMin && lonMax) filteredData = filteredData.filter(...)`:
the box test runs only when all four bounds are supplied. -/
def filterGeo (l : List ShipRecord)
    (latMin? latMax? lonMin? lonMax? : Option Int) : List ShipRecord :=
  match latMin?, latMax?, lonMin?, lonMax? with
  | some a, some b, some c, some d =>
      l.filter (fun ship =>
        decide (a ≤ ship.lat ∧ ship.lat ≤ b ∧ c ≤ ship.lon ∧ ship.lon ≤ d))
  | _, _, _, _ => l

/-- `if (speedMin && speedMax) filteredData = filteredData.filter(...)`. -/
def filterSpeed (l : List ShipRecord) (lo? hi? : Option Int) : List ShipRecord :=
  match lo?, hi? with
  | some lo, some hi =>
      l.filter (fun ship => decide (lo ≤ ship.speed ∧ ship.speed ≤ hi))
  | _, _ => l

/-- `if (courseMin && courseMax) filteredData = filteredData.filter(...)`. -/
def filterCourse (l : List ShipRecord) (lo? hi? : Option Int) : List ShipRecord :=
  match lo?, hi? with
  | some lo, some hi =>
      l.filter (fun ship => decide (lo ≤ ship.course ∧ ship.course ≤ hi))
  | _, _ => l

/-- `if (timestampMin && timestampMax) filteredData = filteredData.filter(...)`
with both ends parsed as dates and compared inclusively. -/
def filterTimestamp (l : List ShipRecord) (lo? hi? : Option Int) : List ShipRecord :=
  match lo?, hi? with
  | some lo, some hi =>
      l.filter (fun ship => decide (lo ≤ ship.timestamp ∧ ship.timestamp ≤ hi))
  | _, _ => l

/-- The whole filter chain of the in-memory `/api/ships` handler, in the
order the source applies the stages. -/
def applyFilters (shipsData : List ShipRecord) (q : QueryParams) : List ShipRecord :=
  filterTimestamp
    (filterCourse
      (filterSpeed
        (filterGeo (filterMMSI shipsData q.mmsi) q.latMin q.latMax q.lonMin q.lonMax)
        q.speedMin q.speedMax)
      q.courseMin q.courseMax)
    q.timestampMin q.timestampMax

/-- `Array.prototype.slice(start, end)` on a list: negative indices count
from the end, indices are clamped to the array length. -/
def jsSlice {α : Type} (l : List α) (start stop : Int) : List α :=
  let len : Int := l.length
  let s := if start < 0 then max (len + start) 0 else min start len
  let e := if stop < 0 then max (len + stop) 0 else min stop len
  (l.take e.toNat).drop s.toNat

/-- `Math.ceil(a / b)`: exact rational division, then the ceiling. -/
def mathCeilDiv (a b : Int) : Int := Int.ceil ((a : ℚ) / (b : ℚ))

/-- The response object of the paginated `/api/ships` handlers. The
filtered in-memory variant builds `responsePayload` without a `message`
key, modelled as `message = none`; the simple variants add the string
when disconnected. -/
structure FilteredResponse where
  message : Option String
  data : List ShipRecord
  isConnected : Bool
  lastConnectionTimestamp : Option Int
  totalResults : Nat
  currentPage : Int
  totalPages : Int
deriving DecidableEq, Repr

/-- The in-memory filtered/paginated handler's `responsePayload`:
filter, slice `[(page-1)*limit, page*limit)`, report the pre-slice count
as `totalResults` and `Math.ceil(filteredData.length / limitInt)` as
`totalPages`. No `message` key is ever attached. -/
def filteredShipsResponse (shipsData : List ShipRecord) (cs : ConnectionState)
    (q : QueryParams) : FilteredResponse :=
  let filteredData := applyFilters shipsData q
  let startIndex := (q.page - 1) * q.limit
  let endIndex := q.page * q.limit
  let paginatedData := jsSlice filteredData startIndex endIndex
  { message := none
    data := paginatedData
    isConnected := cs.isConnected
    lastConnectionTimestamp := cs.lastConnectionTimestamp
    totalResults := filteredData.length
    currentPage := q.page
    totalPages := mathCeilDiv filteredData.length q.limit }

/-- `loadShipsData` as observed by the handler: called only when
`shipsData` is empty; `loaded = some stored` models a successful fetch
(a 404 yields `some []`), `loaded = none` a fetch error, which leaves
`shipsData` as it was. -/
def loadIfEmpty (shipsData : List ShipRecord)
    (loaded : Option (List ShipRecord)) : List ShipRecord :=
  if shipsData.isEmpty then
    match loaded with
    | some stored => stored
    | none => shipsData
  else shipsData

/-- The filtered `/api/ships` handler: reload the registry from storage
when (and only when) it is empty, then compute the response; the pair is
(registry after the request, response sent). Filtering and slicing build
new arrays (`Array.prototype.filter`/`slice` do not mutate), so the
response is a pure function of the reloaded registry. -/
def filteredShipsHandler (shipsData : List ShipRecord) (loaded : Option (List ShipRecord))
    (cs : ConnectionState) (q : QueryParams) : List ShipRecord × FilteredResponse :=
  let shipsData₁ := loadIfEmpty shipsData loaded
  (shipsData₁, filteredShipsResponse shipsData₁ cs q)

/-- String shown for the timestamp inside the advisory template
(JavaScript renders `null` for a null value). -/
def showTimestamp : Option Int → String
  | none => "null"
  | some t => toString t

/-- The advisory string of the simple handlers:
"Connection is down, showing last known data from <lastConnectionTimestamp>". -/
def advisoryMessage (ts : Option Int) : String :=
  "Connection is down, showing last known data from " ++ showTimestamp ts

/-- The response of the unfiltered `/api/ships` variants: the data with the
connection info, plus the advisory `message` key exactly when disconnected. -/
structure SimpleResponse where
  message : Option String
  data : List ShipRecord
  isConnected : Bool
  lastConnectionTimestamp : Option Int
deriving DecidableEq, Repr

/-- The simple `/api/ships` handler (`index.js`): reload when empty, then
serve the data; when `connectionState.isConnected` is false the payload is
spread into an object that adds the advisory `message`, and the data is
served either way with HTTP 200. -/
def simpleShipsHandler (shipsData : List ShipRecord) (loaded : Option (List ShipRecord))
    (cs : ConnectionState) : List ShipRecord × SimpleResponse :=
  let shipsData₁ := loadIfEmpty shipsData loaded
  let responsePayload : SimpleResponse :=
    { message := none
      data := shipsData₁
      isConnected := cs.isConnected
      lastConnectionTimestamp := cs.lastConnectionTimestamp }
  if cs.isConnected then
    (shipsData₁, responsePayload)
  else
    (shipsData₁, { responsePayload with
      message := some (advisoryMessage cs.lastConnectionTimestamp) })

/-! ### The storage-backed query engine (postgres variant) -/

/-- `conditions.push(...)` guarded by a parameter's presence: an absent
parameter contributes no condition (an empty conjunct). -/
def condOpt (o : Option Int) (p : Int → Bool) : Bool :=
  match o with
  | some a => p a
  | none => true

/-- The same guard for the string-valued `mmsi` parameter. -/
def condOptStr (o : Option String) (p : String → Bool) : Bool :=
  match o with
  | some a => p a
  | none => true

/-- The `WHERE` clause the postgres handler assembles: every supplied
parameter pushes its own condition independently, and the clause is the
conjunction of the pushed conditions. -/
def sqlWhere (q : QueryParams) (r : ShipRecord) : Bool :=
  condOptStr q.mmsi (fun m => r.mmsi == m)
  && condOpt q.latMin (fun a => decide (a ≤ r.lat))
  && condOpt q.latMax (fun a => decide (r.lat ≤ a))
  && condOpt q.lonMin (fun a => decide (a ≤ r.lon))
  && condOpt q.lonMax (fun a => decide (r.lon ≤ a))
  && condOpt q.speedMin (fun a => decide (a ≤ r.speed))
  && condOpt q.speedMax (fun a => decide (r.speed ≤ a))
  && condOpt q.courseMin (fun a => decide (a ≤ r.course))
  && condOpt q.courseMax (fun a => decide (r.course ≤ a))
  && condOpt q.timestampMin (fun a => decide (a ≤ r.timestamp))
  && condOpt q.timestampMax (fun a => decide (r.timestamp ≤ a))

/-- Code-point order on the characters of two strings, the collation the
model uses for `ORDER BY mmsi` (mmsi strings are digit strings, where any
reasonable collation agrees with code-point order). -/
def charListLe : List Char → List Char → Bool
  | [], _ => true
  | _ :: _, [] => false
  | a :: as, b :: bs =>
      if a.toNat < b.toNat then true
      else if b.toNat < a.toNat then false
      else charListLe as bs

/-- `ORDER BY mmsi` comparison. -/
def mmsiLe (a b : ShipRecord) : Bool := charListLe a.mmsi.data b.mmsi.data

/-- Insert into an already sorted run (stable). -/
def insertByMmsi (r : ShipRecord) : List ShipRecord → List ShipRecord
  | [] => [r]
  | x :: xs => if mmsiLe r x then r :: x :: xs else x :: insertByMmsi r xs

/-- `ORDER BY mmsi` as a stable insertion sort. -/
def sortByMmsi : List ShipRecord → List ShipRecord
  | [] => []
  | x :: xs => insertByMmsi x (sortByMmsi xs)

/-- The rows `SELECT * FROM ships WHERE ... ORDER BY mmsi LIMIT limit
OFFSET (page-1)*limit` returns. -/
def sqlQueryRows (db : List ShipRecord) (q : QueryParams) : List ShipRecord :=
  (((sortByMmsi (db.filter (fun r => sqlWhere q r))).drop
      (((q.page - 1) * q.limit).toNat)).take q.limit.toNat)

/-- The postgres handler's `responsePayload` (success path; a storage
failure answers 500 instead): `totalResults = result.rowCount`, the count
of the rows of the returned page, and `totalPages = Math.ceil(totalResults
/ limit)` computed from that same page count. -/
def sqlShipsResponse (db : List ShipRecord) (cs : ConnectionState)
    (q : QueryParams) : FilteredResponse :=
  let rows := sqlQueryRows db q
  { message := none
    data := rows
    isConnected := cs.isConnected
    lastConnectionTimestamp := cs.lastConnectionTimestamp
    totalResults := rows.length
    currentPage := q.page
    totalPages := mathCeilDiv rows.length q.limit }

/-! ### Claim C7: retention removes exactly the records older than the threshold -/

/-- C7: `deleteOlderThan(T)` (the sweep's `DELETE FROM ships WHERE
timestamp < T`) retains a record exactly when it was present and its
timestamp is at least `T`; a record with `timestamp < T` is removed, and
one with `timestamp = T` is retained. -/
theorem C7_deleteOlderThan_exact (db : List ShipRecord) (thresholdDate : Int)
    (r : ShipRecord) :
    (r ∈ deleteWhereOlder db thresholdDate ↔ r ∈ db ∧ thresholdDate ≤ r.timestamp)
    ∧ (r.timestamp < thresholdDate → r ∉ deleteWhereOlder db thresholdDate)
    ∧ (r.timestamp = thresholdDate → r ∈ db → r ∈ deleteWhereOlder db thresholdDate) := by
  have hmem : r ∈ deleteWhereOlder db thresholdDate ↔ r ∈ db ∧ thresholdDate ≤ r.timestamp := by
    simp [deleteWhereOlder, List.mem_filter, not_lt]
  refine ⟨hmem, ?_, ?_⟩
  · intro hlt hin
    have := (hmem.mp hin).2
    omega
  · intro heq hin
    exact hmem.mpr ⟨hin, le_of_eq heq.symm⟩

/-! ### Claim C2: a payload that fails to decode -/

/-- C2: the message handler starts with `JSON.parse(message.data.toString())`
outside any `try`/`catch`, so a malformed payload makes the parse throw and
the exception escapes the handler (in the postgres variant the installed
`uncaughtException` hook then exits the process). The registry is not
touched, but the claim's "never crash, discard and continue" behaviour is
not what the code does. -/
theorem C2_decode_failure_escapes (shipsData : List ShipRecord) :
    onMessageRaw none shipsData = Except.error () := rfl

/-! ### Claim C4: a failed flush cycle -/

/-- C4: `flushShipDataCache` drains the cache (`shipDataCache.clear()`)
BEFORE attempting the batched insert; when the insert fails the `catch`
only logs, so the cycle ends with an empty cache and an unchanged table:
the drained records are lost, not retained for the next cycle. Only the
"never fatal" half of the claim holds (`fatal = false`). -/
theorem C4_flush_failure_loses_pending :
    (flushShipDataCache
        [("123456789", { mmsi := "123456789", lat := 10, lon := 20, speed := 5, course := 90, timestamp := 0 })]
        [] false).cache = []
    ∧ (flushShipDataCache
        [("123456789", { mmsi := "123456789", lat := 10, lon := 20, speed := 5, course := 90, timestamp := 0 })]
        [] false).db = []
    ∧ (flushShipDataCache
        [("123456789", { mmsi := "123456789", lat := 10, lon := 20, speed := 5, course := 90, timestamp := 0 })]
        [] false).fatal = false :=
  ⟨rfl, rfl, rfl⟩

/-! ### Claim C8: connection-state bookkeeping -/

theorem connStep_no_open (st : ConnectionState) (evs : List ConnEvent)
    (hall : evs.all (fun e => !isOpenEvent e) = true) (hst : st.isConnected = false) :
    (evs.foldl connStep st).isConnected = false
    ∧ (evs.foldl connStep st).lastConnectionTimestamp = st.lastConnectionTimestamp := by
  induction evs generalizing st with
  | nil => exact ⟨hst, rfl⟩
  | cons e rest ih =>
      rw [List.all_cons, Bool.and_eq_true] at hall
      have h1 : isOpenEvent e = false := by simpa using hall.1
      cases e with
      | opened now => simp [isOpenEvent] at h1
      | closed =>
          have h2 := ih (connStep st ConnEvent.closed) hall.2 rfl
          exact ⟨h2.1, h2.2⟩
      | errored =>
          have h2 := ih (connStep st ConnEvent.errored) hall.2 rfl
          exact ⟨h2.1, h2.2⟩

/-- C8: after a disconnect (`onclose` or `onerror`), `isConnected` is false
and stays false across any further events that contain no successful
connect, and `lastConnectionTimestamp` is untouched by them; a successful
connect (`onopen`) is the only event that sets `isConnected` back to true,
and it is the only event that writes `lastConnectionTimestamp`. -/
theorem C8_disconnect_state (st : ConnectionState) (evs : List ConnEvent)
    (hall : evs.all (fun e => !isOpenEvent e) = true) :
    (evs.foldl connStep (connStep st ConnEvent.closed)).isConnected = false
    ∧ (evs.foldl connStep (connStep st ConnEvent.errored)).isConnected = false
    ∧ (evs.foldl connStep (connStep st ConnEvent.closed)).lastConnectionTimestamp
        = st.lastConnectionTimestamp
    ∧ (evs.foldl connStep (connStep st ConnEvent.errored)).lastConnectionTimestamp
        = st.lastConnectionTimestamp
    ∧ (∀ now : Int, (connStep st (ConnEvent.opened now)).isConnected = true
        ∧ (connStep st (ConnEvent.opened now)).lastConnectionTimestamp = some now) := by
  have hc := connStep_no_open (connStep st ConnEvent.closed) evs hall rfl
  have he := connStep_no_open (connStep st ConnEvent.errored) evs hall rfl
  exact ⟨hc.1, he.1, hc.2, he.2, fun _ => ⟨rfl, rfl⟩⟩

/-- C8 at a concrete run: a connected state hit by an error and a close
stays disconnected with its recorded timestamp intact. -/
theorem C8_disconnect_state_witness :
    ([ConnEvent.errored, ConnEvent.closed].all (fun e => !isOpenEvent e) = true)
    ∧ (([ConnEvent.errored, ConnEvent.closed].foldl connStep
          (connStep { isConnected := true, lastConnectionTimestamp := some 7 }
            ConnEvent.closed)).isConnected = false
      ∧ (([ConnEvent.errored, ConnEvent.closed]).foldl connStep
          (connStep { isConnected := true, lastConnectionTimestamp := some 7 }
            ConnEvent.errored)).isConnected = false
      ∧ (([ConnEvent.errored, ConnEvent.closed]).foldl connStep
          (connStep { isConnected := true, lastConnectionTimestamp := some 7 }
            ConnEvent.closed)).lastConnectionTimestamp = some 7
      ∧ (([ConnEvent.errored, ConnEvent.closed]).foldl connStep
          (connStep { isConnected := true, lastConnectionTimestamp := some 7 }
            ConnEvent.errored)).lastConnectionTimestamp = some 7
      ∧ (∀ now : Int,
          (connStep { isConnected := true, lastConnectionTimestamp := some 7 }
            (ConnEvent.opened now)).isConnected = true
          ∧ (connStep { isConnected := true, lastConnectionTimestamp := some 7 }
            (ConnEvent.opened now)).lastConnectionTimestamp = some now)) :=
  ⟨rfl, C8_disconnect_state { isConnected := true, lastConnectionTimestamp := some 7 }
    [ConnEvent.errored, ConnEvent.closed] rfl⟩

/-! ### Claim C10: the query handler leaves a non-empty registry unchanged -/

/-- C10: the filtered `/api/ships` handler never modifies a non-empty
registry (filter and slice build new arrays), and on an empty registry the
only modification is the repopulation from durable storage. -/
theorem C10_query_preserves_registry (shipsData : List ShipRecord)
    (loaded : Option (List ShipRecord)) (cs : ConnectionState) (q : QueryParams)
    (h : shipsData ≠ []) :
    (filteredShipsHandler shipsData loaded cs q).1 = shipsData
    ∧ (filteredShipsHandler [] loaded cs q).1 = loadIfEmpty [] loaded := by
  cases shipsData with
  | nil => exact absurd rfl h
  | cons a t => exact ⟨rfl, rfl⟩

/-- C10 at a concrete input: a one-record registry is returned unchanged. -/
theorem C10_query_preserves_registry_witness :
    (([({ mmsi := "123456789", lat := 1, lon := 2, speed := 3, course := 4, timestamp := 5 } : ShipRecord)] : List ShipRecord) ≠ [])
    ∧ ((filteredShipsHandler
          [{ mmsi := "123456789", lat := 1, lon := 2, speed := 3, course := 4, timestamp := 5 }]
          (some []) { isConnected := true, lastConnectionTimestamp := none } {}).1
        = [{ mmsi := "123456789", lat := 1, lon := 2, speed := 3, course := 4, timestamp := 5 }]
      ∧ (filteredShipsHandler [] (some [])
          { isConnected := true, lastConnectionTimestamp := none } {}).1
        = loadIfEmpty [] (some [])) :=
  ⟨by decide, C10_query_preserves_registry
    [{ mmsi := "123456789", lat := 1, lon := 2, speed := 3, course := 4, timestamp := 5 }]
    (some []) { isConnected := true, lastConnectionTimestamp := none } {} (by decide)⟩

/-! ### Claim C9: the staleness advisory -/

/-- C9 counterexample: the filtered/paginated variant answers a query while
disconnected with the data but with no `message` key at all — its
`responsePayload` simply never includes one, against the claim that every
disconnected response carries the advisory. -/
theorem C9_counterexample :
    (filteredShipsResponse
        [{ mmsi := "123456789", lat := 1, lon := 2, speed := 3, course := 4, timestamp := 5 }]
        { isConnected := false, lastConnectionTimestamp := some 11 } {}).isConnected = false
    ∧ (filteredShipsResponse
        [{ mmsi := "123456789", lat := 1, lon := 2, speed := 3, course := 4, timestamp := 5 }]
        { isConnected := false, lastConnectionTimestamp := some 11 } {}).data
        = [{ mmsi := "123456789", lat := 1, lon := 2, speed := 3, course := 4, timestamp := 5 }]
    ∧ (filteredShipsResponse
        [{ mmsi := "123456789", lat := 1, lon := 2, speed := 3, course := 4, timestamp := 5 }]
        { isConnected := false, lastConnectionTimestamp := some 11 } {}).message = none := by
  decide

/-- C9 (amended): the simple `/api/ships` variants attach the advisory
message exactly when disconnected and serve the data either way; the
filtered/paginated variant also always serves the data (with the
connection flag and last-connect time in the payload) but never includes
an advisory message, connected or not. -/
theorem C9_staleness_advisory (shipsData : List ShipRecord)
    (loaded : Option (List ShipRecord)) (cs : ConnectionState) (q : QueryParams) :
    ((simpleShipsHandler shipsData loaded cs).2.message
        = (if cs.isConnected then none
           else some (advisoryMessage cs.lastConnectionTimestamp)))
    ∧ ((simpleShipsHandler shipsData loaded cs).2.data = loadIfEmpty shipsData loaded)
    ∧ ((simpleShipsHandler shipsData loaded cs).2.isConnected = cs.isConnected)
    ∧ ((filteredShipsResponse shipsData cs q).message = none)
    ∧ ((filteredShipsResponse shipsData cs q).data
        = jsSlice (applyFilters shipsData q) ((q.page - 1) * q.limit) (q.page * q.limit)) := by
  cases hcs : cs.isConnected <;>
    simp [simpleShipsHandler, filteredShipsResponse, hcs]

/-! ### Claim C1: upsert semantics for one mmsi -/

/-- The first message of the C1 scenario: a full report for vessel
123456789 with speed 5 and course 90. -/
def c1firstMsg : IncomingData :=
  { message := some { latitude := 10, longitude := 20, sog := some 5, cog := some 90 }
    metaData := { mmsiString := "123456789", timeUtc := 100 } }

/-- The second message of the C1 scenario: the same vessel, `Sog` and
`Cog` absent from the report. -/
def c1secondMsg : IncomingData :=
  { message := some { latitude := 11, longitude := 21, sog := none, cog := none }
    metaData := { mmsiString := "123456789", timeUtc := 200 } }

/-- C1 counterexample: after storing speed 5 / course 90 and then applying
a report that omits `Sog`/`Cog`, the stored record has speed 0 and course
0 — the `|| 0` default overwrites the previously known values, so fields
not supplied by the latest partial report are NOT retained (the spec's §8
merge scenario expects speed 5, course 90). -/
theorem C1_counterexample :
    onMessage (onMessage [] c1firstMsg) c1secondMsg
      = [{ mmsi := "123456789", lat := 11, lon := 21, speed := 0, course := 0, timestamp := 200 }]
    ∧ onMessage [] c1firstMsg
      = [{ mmsi := "123456789", lat := 10, lon := 20, speed := 5, course := 90, timestamp := 100 }]
    ∧ (onMessage (onMessage [] c1firstMsg) c1secondMsg).find?
        (fun r => r.mmsi == "123456789")
      ≠ some { mmsi := "123456789", lat := 11, lon := 21, speed := 5, course := 90, timestamp := 200 } := by
  decide

/-- C1 (amended): after any sequence of position-report messages the
registry holds exactly one record for the reported `mmsi`, but the upsert
is a full overwrite, not a field-merge: the stored record for that `mmsi`
is exactly the freshly constructed `shipData` (with 0 substituted for an
absent `Sog`/`Cog`), in the array variant and in the `Map.set` cache
variant alike. -/
theorem C1_upsert_unique_full_overwrite (msgs : List IncomingData) (d : IncomingData)
    (pr : PositionReport) (hpr : d.message = some pr) :
    mmsiCount (onMessage (msgs.foldl onMessage []) d) d.metaData.mmsiString = 1
    ∧ (onMessage (msgs.foldl onMessage []) d).find?
        (fun r => r.mmsi == d.metaData.mmsiString) = some (shipDataOf pr d.metaData)
    ∧ ∀ cache : List (String × ShipRecord),
        mapGet (cacheOnMessage cache d) d.metaData.mmsiString
          = some (shipDataOf pr d.metaData) := by
  have hko := keysOnce_foldl msgs [] keysOnce_nil
  refine ⟨?_, ?_, ?_⟩
  · simp only [onMessage, hpr]
    exact mmsiCount_upsert_self (msgs.foldl onMessage []) (shipDataOf pr d.metaData) hko
  · simp only [onMessage, hpr]
    exact find?_upsert_self (msgs.foldl onMessage []) (shipDataOf pr d.metaData)
  · intro cache
    simp only [cacheOnMessage, hpr]
    exact mapGet_mapSet_self cache _ _

/-- C1 (amended) at the concrete two-message scenario. -/
theorem C1_upsert_unique_full_overwrite_witness :
    (c1secondMsg.message
        = some { latitude := 11, longitude := 21, sog := none, cog := none })
    ∧ (mmsiCount (onMessage ([c1firstMsg].foldl onMessage []) c1secondMsg)
          c1secondMsg.metaData.mmsiString = 1
      ∧ (onMessage ([c1firstMsg].foldl onMessage []) c1secondMsg).find?
          (fun r => r.mmsi == c1secondMsg.metaData.mmsiString)
          = some (shipDataOf { latitude := 11, longitude := 21, sog := none, cog := none }
              c1secondMsg.metaData)
      ∧ ∀ cache : List (String × ShipRecord),
          mapGet (cacheOnMessage cache c1secondMsg) c1secondMsg.metaData.mmsiString
            = some (shipDataOf { latitude := 11, longitude := 21, sog := none, cog := none }
                c1secondMsg.metaData)) :=
  ⟨rfl, C1_upsert_unique_full_overwrite [c1firstMsg] c1secondMsg
    { latitude := 11, longitude := 21, sog := none, cog := none } rfl⟩

/-! ### Claim C5: when the geographic box applies -/

theorem condOpt_eq_true (o : Option Int) (p : Int → Bool) :
    condOpt o p = true ↔ ∀ a, o = some a → p a = true := by
  cases o <;> simp [condOpt]

theorem condOptStr_eq_true (o : Option String) (p : String → Bool) :
    condOptStr o p = true ↔ ∀ a, o = some a → p a = true := by
  cases o <;> simp [condOptStr]

theorem mem_filterMMSI (l : List ShipRecord) (m? : Option String) (r : ShipRecord) :
    r ∈ filterMMSI l m? ↔ r ∈ l ∧ ∀ m, m? = some m → r.mmsi = m := by
  cases m? <;> simp [filterMMSI, List.mem_filter]

theorem mem_filterGeo (l : List ShipRecord) (a? b? c? d? : Option Int) (r : ShipRecord) :
    r ∈ filterGeo l a? b? c? d? ↔ r ∈ l ∧
      ((a?.isSome ∧ b?.isSome ∧ c?.isSome ∧ d?.isSome) →
        ((∀ a, a? = some a → a ≤ r.lat) ∧ (∀ b, b? = some b → r.lat ≤ b)
          ∧ (∀ c, c? = some c → c ≤ r.lon) ∧ (∀ d, d? = some d → r.lon ≤ d))) := by
  cases a? <;> cases b? <;> cases c? <;> cases d? <;>
    simp [filterGeo, List.mem_filter, and_assoc]

theorem mem_filterSpeed (l : List ShipRecord) (lo? hi? : Option Int) (r : ShipRecord) :
    r ∈ filterSpeed l lo? hi? ↔ r ∈ l ∧
      ∀ lo hi, lo? = some lo → hi? = some hi → lo ≤ r.speed ∧ r.speed ≤ hi := by
  cases lo? <;> cases hi? <;> simp [filterSpeed, List.mem_filter]

theorem mem_filterCourse (l : List ShipRecord) (lo? hi? : Option Int) (r : ShipRecord) :
    r ∈ filterCourse l lo? hi? ↔ r ∈ l ∧
      ∀ lo hi, lo? = some lo → hi? = some hi → lo ≤ r.course ∧ r.course ≤ hi := by
  cases lo? <;> cases hi? <;> simp [filterCourse, List.mem_filter]

theorem mem_filterTimestamp (l : List ShipRecord) (lo? hi? : Option Int) (r : ShipRecord) :
    r ∈ filterTimestamp l lo? hi? ↔ r ∈ l ∧
      ∀ lo hi, lo? = some lo → hi? = some hi → lo ≤ r.timestamp ∧ r.timestamp ≤ hi := by
  cases lo? <;> cases hi? <;> simp [filterTimestamp, List.mem_filter]

/-- C5 counterexample: in the storage-backed engine a single supplied
bound restricts the results on its own: with only `latMin = 10` (the
other three box bounds absent) a record at `lat = 5` is filtered out,
where the claim demands that no geographic constraint apply. -/
theorem C5_counterexample :
    sqlWhere { latMin := some 10 }
        { mmsi := "123456789", lat := 5, lon := 0, speed := 0, course := 0, timestamp := 0 }
      = false
    ∧ ({ latMin := some 10 } : QueryParams).latMax = none
    ∧ ({ latMin := some 10 } : QueryParams).lonMin = none
    ∧ ({ latMin := some 10 } : QueryParams).lonMax = none
    ∧ sqlQueryRows
        [{ mmsi := "123456789", lat := 5, lon := 0, speed := 0, course := 0, timestamp := 0 }]
        { latMin := some 10 } = [] := by
  decide

/-- C5 (amended): in the in-memory engine the geographic box constrains a
record exactly when all four bounds are supplied together (any absent
bound disables the whole box); in the storage-backed engine each of the
four bounds is pushed as its own `WHERE` condition, so every supplied
bound constrains the results independently of the other three. -/
theorem C5_geo_filter_characterization (s : List ShipRecord) (q : QueryParams)
    (r : ShipRecord) :
    (r ∈ applyFilters s q ↔ r ∈ s
      ∧ (∀ m, q.mmsi = some m → r.mmsi = m)
      ∧ ((q.latMin.isSome ∧ q.latMax.isSome ∧ q.lonMin.isSome ∧ q.lonMax.isSome) →
          ((∀ a, q.latMin = some a → a ≤ r.lat) ∧ (∀ b, q.latMax = some b → r.lat ≤ b)
            ∧ (∀ c, q.lonMin = some c → c ≤ r.lon) ∧ (∀ d, q.lonMax = some d → r.lon ≤ d)))
      ∧ (∀ lo hi, q.speedMin = some lo → q.speedMax = some hi →
          lo ≤ r.speed ∧ r.speed ≤ hi)
      ∧ (∀ lo hi, q.courseMin = some lo → q.courseMax = some hi →
          lo ≤ r.course ∧ r.course ≤ hi)
      ∧ (∀ lo hi, q.timestampMin = some lo → q.timestampMax = some hi →
          lo ≤ r.timestamp ∧ r.timestamp ≤ hi))
    ∧ (sqlWhere q r = true ↔
        ((∀ m, q.mmsi = some m → r.mmsi = m)
        ∧ (∀ a, q.latMin = some a → a ≤ r.lat)
        ∧ (∀ b, q.latMax = some b → r.lat ≤ b)
        ∧ (∀ c, q.lonMin = some c → c ≤ r.lon)
        ∧ (∀ d, q.lonMax = some d → r.lon ≤ d)
        ∧ (∀ a, q.speedMin = some a → a ≤ r.speed)
        ∧ (∀ a, q.speedMax = some a → r.speed ≤ a)
        ∧ (∀ a, q.courseMin = some a → a ≤ r.course)
        ∧ (∀ a, q.courseMax = some a → r.course ≤ a)
        ∧ (∀ a, q.timestampMin = some a → a ≤ r.timestamp)
        ∧ (∀ a, q.timestampMax = some a → r.timestamp ≤ a))) := by
  constructor
  · rw [applyFilters, mem_filterTimestamp, mem_filterCourse, mem_filterSpeed,
      mem_filterGeo, mem_filterMMSI]
    tauto
  · rw [sqlWhere]
    simp only [Bool.and_eq_true, condOpt_eq_true, condOptStr_eq_true,
      decide_eq_true_eq, beq_iff_eq]
    tauto

/-! ### Claim C6: pagination partitions the filtered set -/

theorem jsSlice_nonneg {α : Type} (l : List α) (a b : Int) (ha : 0 ≤ a) (hb : 0 ≤ b) :
    jsSlice l a b = (l.take b.toNat).drop a.toNat := by
  simp only [jsSlice]
  rw [if_neg (not_lt.mpr ha), if_neg (not_lt.mpr hb)]
  have htake : l.take (min b (l.length : Int)).toNat = l.take b.toNat := by
    rcases le_total b (l.length : Int) with h | h
    · rw [min_eq_left h]
    · rw [min_eq_right h]
      have h1 : ((l.length : Int)).toNat = l.length := by omega
      have h2 : l.length ≤ b.toNat := by omega
      rw [h1, List.take_length, List.take_of_length_le h2]
  rw [htake]
  rcases le_total a (l.length : Int) with h | h
  · rw [min_eq_left h]
  · rw [min_eq_right h]
    have h3 : (l.take b.toNat).length ≤ ((l.length : Int)).toNat := by
      rw [List.length_take]
      omega
    have h4 : (l.take b.toNat).length ≤ a.toNat := by
      rw [List.length_take]
      omega
    rw [List.drop_eq_nil_of_le h3, List.drop_eq_nil_of_le h4]

theorem le_ceilDiv_mul (len : Nat) (k : Int) (hk : 0 < k) :
    (len : Int) ≤ mathCeilDiv len k * k := by
  have hk0 : (0 : ℚ) < (k : ℚ) := by exact_mod_cast hk
  have h1 : (((len : Int) : ℚ) / (k : ℚ)) ≤ ((mathCeilDiv len k : Int) : ℚ) := Int.le_ceil _
  rw [div_le_iff₀ hk0] at h1
  exact_mod_cast h1

theorem ceilDiv_nonneg (len : Nat) (k : Int) (hk : 0 < k) : 0 ≤ mathCeilDiv len k := by
  rw [mathCeilDiv]
  apply Int.ceil_nonneg
  apply div_nonneg
  · exact_mod_cast Int.natCast_nonneg len
  · exact_mod_cast hk.le

theorem take_drop_chunks {α : Type} (k : Nat) :
    ∀ (n : Nat) (l : List α), l.length ≤ n * k →
      ((List.range n).map (fun i => (l.drop (i * k)).take k)).flatten = l := by
  intro n
  induction n with
  | zero =>
      intro l hl
      simp only [Nat.zero_mul, Nat.le_zero, List.length_eq_zero] at hl
      simp [hl]
  | succ n ih =>
      intro l hl
      rw [List.range_succ_eq_map, List.map_cons, List.flatten_cons, List.map_map]
      have hcomp : ((fun i => (l.drop (i * k)).take k) ∘ Nat.succ)
          = fun i => ((l.drop k).drop (i * k)).take k := by
        funext i
        simp only [Function.comp]
        rw [List.drop_drop, Nat.succ_mul, Nat.add_comm (i * k) k]
      have hlen : (l.drop k).length ≤ n * k := by
        rw [List.length_drop, Nat.sub_le_iff_le_add]
        rw [Nat.succ_mul] at hl
        exact hl
      rw [hcomp, ih (l.drop k) hlen]
      simp only [Nat.zero_mul, List.drop_zero]
      exact List.take_append_drop k l

/-- C6: with a positive `limit`, the page slices for pages `1, 2, ...,
totalPages` concatenate, in order, to exactly the filtered record set (so
no record is duplicated or dropped across pages), and every page past
`totalPages` yields the empty slice rather than an error. -/
theorem C6_pagination_partition (s : List ShipRecord) (cs : ConnectionState)
    (q : QueryParams) (hl : 0 < q.limit) :
    (((List.range (filteredShipsResponse s cs q).totalPages.toNat).map
        (fun (i : Nat) => (filteredShipsResponse s cs { q with page := (i : Int) + 1 }).data)).flatten
      = applyFilters s q)
    ∧ (∀ p : Int, (filteredShipsResponse s cs q).totalPages < p →
        (filteredShipsResponse s cs { q with page := p }).data = []) := by
  have hdata : ∀ p : Int, (filteredShipsResponse s cs { q with page := p }).data
      = jsSlice (applyFilters s q) ((p - 1) * q.limit) (p * q.limit) := fun _ => rfl
  have htp : (filteredShipsResponse s cs q).totalPages
      = mathCeilDiv (applyFilters s q).length q.limit := rfl
  have hN0 : 0 ≤ mathCeilDiv (applyFilters s q).length q.limit :=
    ceilDiv_nonneg _ _ hl
  have hNk : ((applyFilters s q).length : Int)
      ≤ mathCeilDiv (applyFilters s q).length q.limit * q.limit :=
    le_ceilDiv_mul _ _ hl
  have hkey : (applyFilters s q).length
      ≤ (mathCeilDiv (applyFilters s q).length q.limit).toNat * q.limit.toNat := by
    have hcast :
        (((mathCeilDiv (applyFilters s q).length q.limit).toNat * q.limit.toNat : Nat) : Int)
          = mathCeilDiv (applyFilters s q).length q.limit * q.limit := by
      push_cast [Int.toNat_of_nonneg hN0, Int.toNat_of_nonneg hl.le]
      ring
    have h2 : ((applyFilters s q).length : Int)
        ≤ (((mathCeilDiv (applyFilters s q).length q.limit).toNat * q.limit.toNat : Nat) : Int) :=
      hcast ▸ hNk
    exact_mod_cast h2
  have hslice : ∀ i : Nat,
      jsSlice (applyFilters s q) (((i : Int) + 1 - 1) * q.limit) (((i : Int) + 1) * q.limit)
        = ((applyFilters s q).drop (i * q.limit.toNat)).take q.limit.toNat := by
    intro i
    have h01 : ((i : Int) + 1 - 1) * q.limit = ((i * q.limit.toNat : Nat) : Int) := by
      push_cast [Int.toNat_of_nonneg hl.le]
      ring
    have h02 : ((i : Int) + 1) * q.limit = (((i + 1) * q.limit.toNat : Nat) : Int) := by
      push_cast [Int.toNat_of_nonneg hl.le]
      ring
    rw [h01, h02, jsSlice_nonneg _ _ _ (by positivity) (by positivity)]
    rw [Int.toNat_natCast, Int.toNat_natCast]
    rw [List.drop_take]
    congr 1
    rw [Nat.succ_mul]
    exact Nat.add_sub_cancel_left (i * q.limit.toNat) q.limit.toNat
  constructor
  · rw [htp]
    have hmap : (List.range (mathCeilDiv (applyFilters s q).length q.limit).toNat).map
          (fun (i : Nat) => (filteredShipsResponse s cs { q with page := (i : Int) + 1 }).data)
        = (List.range (mathCeilDiv (applyFilters s q).length q.limit).toNat).map
          (fun i => ((applyFilters s q).drop (i * q.limit.toNat)).take q.limit.toNat) := by
      apply List.map_congr_left
      intro i _
      rw [hdata ((i : Int) + 1)]
      exact hslice i
    rw [hmap]
    exact take_drop_chunks q.limit.toNat _ _ hkey
  · intro p hp
    rw [htp] at hp
    rw [hdata p]
    have hp1 : (1 : Int) ≤ p := by omega
    have ha : 0 ≤ (p - 1) * q.limit := mul_nonneg (by omega) hl.le
    have hb : 0 ≤ p * q.limit := mul_nonneg (by omega) hl.le
    rw [jsSlice_nonneg _ _ _ ha hb]
    have hbig : ((applyFilters s q).length : Int) ≤ (p - 1) * q.limit := by
      calc ((applyFilters s q).length : Int)
          ≤ mathCeilDiv (applyFilters s q).length q.limit * q.limit := hNk
        _ ≤ (p - 1) * q.limit := by
            apply mul_le_mul_of_nonneg_right _ hl.le
            omega
    have hlen : ((applyFilters s q).take (p * q.limit).toNat).length
        ≤ ((p - 1) * q.limit).toNat := by
      rw [List.length_take]
      generalize hA : (p - 1) * q.limit = A at hbig
      generalize hB : p * q.limit = B
      omega
    exact List.drop_eq_nil_of_le hlen

/-- A three-record registry for the C6 witness run. -/
def c6ships : List ShipRecord :=
  [{ mmsi := "111111111", lat := 1, lon := 1, speed := 1, course := 1, timestamp := 1 },
   { mmsi := "222222222", lat := 2, lon := 2, speed := 2, course := 2, timestamp := 2 },
   { mmsi := "333333333", lat := 3, lon := 3, speed := 3, course := 3, timestamp := 3 }]

/-- A query with `limit = 2` for the C6 witness run. -/
def c6query : QueryParams := { limit := 2 }

/-- The connection state for the C6 witness run. -/
def c6conn : ConnectionState := { isConnected := true, lastConnectionTimestamp := some 0 }

/-- C6 at a concrete run: three filtered records, limit 2, two pages. -/
theorem C6_pagination_partition_witness :
    (0 < c6query.limit)
    ∧ ((((List.range (filteredShipsResponse c6ships c6conn c6query).totalPages.toNat).map
        (fun (i : Nat) => (filteredShipsResponse c6ships c6conn
          { c6query with page := (i : Int) + 1 }).data)).flatten
      = applyFilters c6ships c6query)
    ∧ (∀ p : Int, (filteredShipsResponse c6ships c6conn c6query).totalPages < p →
        (filteredShipsResponse c6ships c6conn { c6query with page := p }).data = [])) :=
  ⟨by decide, C6_pagination_partition c6ships c6conn c6query (by decide)⟩

/-! ### Claim C3: totalResults and totalPages -/

/-- The two-vessel table of the C3 scenario. -/
def c3db : List ShipRecord :=
  [{ mmsi := "111111111", lat := 1, lon := 1, speed := 1, course := 1, timestamp := 1 },
   { mmsi := "222222222", lat := 2, lon := 2, speed := 2, course := 2, timestamp := 2 }]

/-- The C3 query: no filters, `limit = 1`, `page = 1`. -/
def c3query : QueryParams := { limit := 1 }

/-- The connection state for the C3 scenario. -/
def c3conn : ConnectionState := { isConnected := true, lastConnectionTimestamp := some 0 }

/-- C3: the postgres handler's `totalResults` is `result.rowCount`, the
number of rows of the LIMIT/OFFSET page, not the full filtered count, and
its `totalPages` is `Math.ceil` of that same page count: with two matching
rows and `limit = 1, page = 1` it reports `totalResults = 1, totalPages =
1` where the claim demands 2 and 2. The in-memory variant does satisfy
the claim: it reports the pre-slice count and the page count derived
from it. -/
theorem C3_totalResults_is_rowCount :
    (sqlShipsResponse c3db c3conn c3query).totalResults = 1
    ∧ (c3db.filter (fun r => sqlWhere c3query r)).length = 2
    ∧ (sqlShipsResponse c3db c3conn c3query).totalPages = 1
    ∧ mathCeilDiv ((c3db.filter (fun r => sqlWhere c3query r)).length : Int) c3query.limit = 2
    ∧ (filteredShipsResponse c3db c3conn c3query).totalResults = 2
    ∧ (filteredShipsResponse c3db c3conn c3query).totalPages = 2 := by
  have hrows : sqlQueryRows c3db c3query
      = [{ mmsi := "111111111", lat := 1, lon := 1, speed := 1, course := 1, timestamp := 1 }] := by
    decide
  have happ : (applyFilters c3db c3query).length = 2 := by decide
  have hfil : (c3db.filter (fun r => sqlWhere c3query r)).length = 2 := by decide
  refine ⟨?_, hfil, ?_, ?_, ?_, ?_⟩
  · show (sqlQueryRows c3db c3query).length = 1
    rw [hrows]
    rfl
  · show mathCeilDiv ((sqlQueryRows c3db c3query).length : Int) c3query.limit = 1
    rw [hrows]
    show mathCeilDiv 1 1 = 1
    rw [mathCeilDiv]
    norm_num
  · rw [hfil]
    show mathCeilDiv 2 1 = 2
    rw [mathCeilDiv]
    norm_num
  · show (applyFilters c3db c3query).length = 2
    exact happ
  · show mathCeilDiv ((applyFilters c3db c3query).length : Int) c3query.limit = 2
    rw [happ]
    show mathCeilDiv 2 1 = 2
    rw [mathCeilDiv]
    norm_num
